import Mathlib

/-!
# Verification of the local-provider events adapter

A shallow embedding of
`src/packages/framework-provider-local/src/library/events-adapter.ts`.

Timestamps (ISO-8601 strings) are modelled as `String`, compared with the
lexicographic order on their character sequences (`tsLt`), which is what
the JavaScript string comparison applied by the registry does and agrees
with chronological order on ISO-8601 timestamps of the fixed
`toISOString` format.

Effectful code is embedded as explicit state passing: a `World` supplies
the outcome of each external call (the wall clock read by `new Date()`,
the registry's `store`, and the dispatch sink), and an `St` records the
observable trace (counters, attempted and durably stored records, dispatch
invocations).  Fallible operations return `Except Err Unit × St`.
-/

namespace EventsAdapter

/-- ISO-8601 timestamps, modelled as strings (lexicographic order). -/
abbrev Timestamp := String

/-- `new Date(0).toISOString()` from the source. -/
def originOfTime : Timestamp := "1970-01-01T00:00:00.000Z"

/-- `NonPersistedEventEnvelope`: an event envelope before it is durably
stored; it has no `persistedAt` field.  The domain payload and the
correlation metadata are opaque to the adapter and modelled as strings. -/
structure NonPersistedEventEnvelope where
  entityTypeName : String
  entityID : String
  kind : String
  value : String
  createdAt : Timestamp
  requestID : String
  deriving DecidableEq

/-- `EventEnvelope`: a persisted event record; exactly a
`NonPersistedEventEnvelope` plus `persistedAt`. -/
structure EventEnvelope extends NonPersistedEventEnvelope where
  persistedAt : Timestamp
  deriving DecidableEq

/-- The spread `\x7b ...eventEnvelope, persistedAt: ts \x7d` from
`persistEvent`: a copy of the input envelope with `persistedAt` added. -/
def toPersisted (e : NonPersistedEventEnvelope) (ts : Timestamp) : EventEnvelope :=
  { toNonPersistedEventEnvelope := e, persistedAt := ts }

/-- Forget the `persistedAt` field of a persisted record. -/
def EventEnvelope.erase (r : EventEnvelope) : NonPersistedEventEnvelope :=
  r.toNonPersistedEventEnvelope

/-- `EntitySnapshotEnvelope`: a materialized entity state; the folded
value is opaque to the adapter. -/
structure EntitySnapshotEnvelope where
  entityTypeName : String
  entityID : String
  kind : String
  value : String
  createdAt : Timestamp
  deriving DecidableEq

/-- The error universe visible to the adapter.  `conflict` is
`OptimisticConcurrencyUnexpectedVersionError`; `registryFailure` is any
other storage failure; `dispatchFailure` is one possible error a dispatch
sink can raise.  JavaScript errors are untyped, so every collaborator may
raise any of these values. -/
inductive Err where
  | conflict : Err
  | registryFailure : String → Err
  | dispatchFailure : String → Err
  deriving DecidableEq

/-- The `error instanceof OptimisticConcurrencyUnexpectedVersionError`
test used by the retry wrapper. -/
def isConflict : Err → Bool
  | Err.conflict => true
  | _ => false

/-- The environment: outcomes of external calls, indexed by how many calls
of that kind happened before.  `now n` is the value of the `(n+1)`-th
`new Date().toISOString()`; `storeResult n` is the outcome of the
`(n+1)`-th `eventRegistry.store` call (`none` = success); `dispatchResult n`
is the outcome of the `(n+1)`-th `userApp.boosterEventDispatcher` call. -/
structure World where
  now : Nat → Timestamp
  storeResult : Nat → Option Err
  dispatchResult : Nat → Option Err

/-- The observable trace of a run: counters of clock reads and store
calls, every store attempt, every durably stored record (in store order),
and every dispatch invocation with the batch it received. -/
structure St where
  clockCalls : Nat
  storeCalls : Nat
  storeAttempts : List EventEnvelope
  storedEvents : List EventEnvelope
  snapshotAttempts : List EntitySnapshotEnvelope
  storedSnapshots : List EntitySnapshotEnvelope
  dispatchCalls : List (List NonPersistedEventEnvelope)

/-- The empty trace. -/
def St.init : St := ⟨0, 0, [], [], [], [], []⟩

/-- Modelled from the spec: the Registry Port's `store` applied to an
event record (the registry package is not under `src/`).  The outcome is
the world's `storeResult` oracle at the current store-call index; on
success the record is appended to the durable log, on failure nothing is
stored.  Every call is recorded in `storeAttempts`. -/
def storeEventRecord (w : World) (r : EventEnvelope) (s : St) :
    Except Err Unit × St :=
  match w.storeResult s.storeCalls with
  | none =>
    (Except.ok (), { s with
      storeCalls := s.storeCalls + 1
      storeAttempts := s.storeAttempts ++ [r]
      storedEvents := s.storedEvents ++ [r] })
  | some e =>
    (Except.error e, { s with
      storeCalls := s.storeCalls + 1
      storeAttempts := s.storeAttempts ++ [r] })

/-- Modelled from the spec: the Registry Port's `store` applied to a
snapshot record (the registry package is not under `src/`). -/
def storeSnapshotRecord (w : World) (r : EntitySnapshotEnvelope) (s : St) :
    Except Err Unit × St :=
  match w.storeResult s.storeCalls with
  | none =>
    (Except.ok (), { s with
      storeCalls := s.storeCalls + 1
      snapshotAttempts := s.snapshotAttempts ++ [r]
      storedSnapshots := s.storedSnapshots ++ [r] })
  | some e =>
    (Except.error e, { s with
      storeCalls := s.storeCalls + 1
      snapshotAttempts := s.snapshotAttempts ++ [r] })

/-- `persistEvent` from the source: reads the wall clock, builds the
persisted record as a copy of the envelope with `persistedAt` set to that
fresh timestamp, and stores it. -/
def persistEvent (w : World) (eventEnvelope : NonPersistedEventEnvelope) (s : St) :
    Except Err Unit × St :=
  let ts := w.now s.clockCalls
  let persistableEvent := toPersisted eventEnvelope ts
  storeEventRecord w persistableEvent { s with clockCalls := s.clockCalls + 1 }

/-- Modelled from the spec: `retryIfError` from the
`framework-common-helpers` package (not under `src/`).  Invokes the
operation once; on a failure whose kind equals the conflict kind, retries
up to `maxAttempts - 1` additional times; any other failure propagates
immediately; after exhausting the attempts the conflict error propagates.
The backoff delay between attempts has no observable effect in this
embedding and is omitted. -/
def retryIfError (op : St → Except Err Unit × St) (conflictKind : Err → Bool) :
    Nat → St → Except Err Unit × St
  | 0, s => (Except.error Err.conflict, s)
  | n + 1, s =>
    match op s with
    | (Except.ok u, s') => (Except.ok u, s')
    | (Except.error e, s') =>
      if conflictKind e then
        if n = 0 then (Except.error e, s')
        else retryIfError op conflictKind n s'
      else (Except.error e, s')

/-- The `for (const eventEnvelope of eventEnvelopes)` loop of
`storeEvents`: each envelope is persisted under the retry wrapper, one at
a time, aborting on the first envelope whose retries fail. -/
def storeEventsGo (w : World) (maxAttempts : Nat) :
    List NonPersistedEventEnvelope → St → Except Err Unit × St
  | [], s => (Except.ok (), s)
  | e :: rest, s =>
    match retryIfError (persistEvent w e) isConflict maxAttempts s with
    | (Except.ok _, s') => storeEventsGo w maxAttempts rest s'
    | (Except.error err, s') => (Except.error err, s')

/-- The `userApp.boosterEventDispatcher(eventEnvelopes)` call: the batch
handed over is recorded, and the dispatcher's outcome (from the world's
oracle at the current dispatch-call index) propagates unchanged. -/
def dispatchBatch (w : World) (batch : List NonPersistedEventEnvelope) (s : St) :
    Except Err Unit × St :=
  let idx := s.dispatchCalls.length
  let s' := { s with dispatchCalls := s.dispatchCalls ++ [batch] }
  match w.dispatchResult idx with
  | none => (Except.ok (), s')
  | some e => (Except.error e, s')

/-- `storeEvents` from the source: persists the batch sequentially, each
envelope under the retry wrapper for the conflict error kind, then hands
the original batch to the dispatch sink. -/
def storeEvents (w : World) (maxAttempts : Nat)
    (eventEnvelopes : List NonPersistedEventEnvelope) (s : St) :
    Except Err Unit × St :=
  match storeEventsGo w maxAttempts eventEnvelopes s with
  | (Except.ok _, s') => dispatchBatch w eventEnvelopes s'
  | (Except.error err, s') => (Except.error err, s')

/-- `storeSnapshot` from the source: a single store wrapped in the same
retry policy; no dispatch side effect. -/
def storeSnapshot (w : World) (maxAttempts : Nat)
    (snapshotEnvelope : EntitySnapshotEnvelope) (s : St) :
    Except Err Unit × St :=
  retryIfError (storeSnapshotRecord w snapshotEnvelope) isConflict maxAttempts s

/-- The query value built by `readEntityEventsSince`: entity id, type
name, kind, and the exclusive `createdAt` lower bound (the `$gt` field). -/
structure EventsQuery where
  entityID : String
  entityTypeName : String
  kind : String
  createdAtGt : Timestamp
  deriving DecidableEq

/-- `readEntityEventsSince` from the source, over an abstract registry
query function `q`.  `since ? since : originOfTime` is JavaScript
truthiness: the empty string also falls back to the origin of time. -/
def readEntityEventsSince (q : EventsQuery → List EventEnvelope)
    (entityTypeName : String) (entityID : String)
    (since : Option Timestamp) : List EventEnvelope :=
  let fromTime := match since with
    | some sv => if sv = "" then originOfTime else sv
    | none => originOfTime
  q ⟨entityID, entityTypeName, "event", fromTime⟩

/-- The query value built by `readEntityLatestSnapshot`. -/
structure SnapshotQuery where
  entityID : String
  entityTypeName : String
  kind : String
  deriving DecidableEq

/-- `readEntityLatestSnapshot` from the source, over an abstract
`queryLatestSnapshot` function: the registry's answer is returned when
present, and the explicit absent value otherwise. -/
def readEntityLatestSnapshot (qls : SnapshotQuery → Option EntitySnapshotEnvelope)
    (entityTypeName : String) (entityID : String) :
    Option EntitySnapshotEnvelope :=
  match qls ⟨entityID, entityTypeName, "snapshot"⟩ with
  | some snapshot => some snapshot
  | none => none

/-- Strict lexicographic comparison of timestamps by their character
sequences: the comparison the JavaScript registry's string `$gt` uses. -/
def tsLt (s t : Timestamp) : Bool :=
  decide (s.data < t.data)

/-- Whether an event record matches an events query: equality on the
identity fields and `createdAt` strictly greater than the bound. -/
def matchesEventsQuery (q : EventsQuery) (e : EventEnvelope) : Bool :=
  e.entityID == q.entityID && e.entityTypeName == q.entityTypeName &&
    e.kind == q.kind && tsLt q.createdAtGt e.createdAt

/-- Insert a record into a list sorted by ascending `createdAt`. -/
def insertByCreatedAt (e : EventEnvelope) :
    List EventEnvelope → List EventEnvelope
  | [] => [e]
  | x :: xs =>
    if tsLt x.createdAt e.createdAt then x :: insertByCreatedAt e xs
    else e :: x :: xs

/-- Sort records by ascending `createdAt` (insertion sort). -/
def sortByCreatedAt (l : List EventEnvelope) : List EventEnvelope :=
  l.foldr insertByCreatedAt []

/-- Modelled from the spec: the Registry Port's `query` (the registry
package is not under `src/`): all records matching the filter, ordered
ascending by `createdAt`. -/
def registryQuery (records : List EventEnvelope) (q : EventsQuery) :
    List EventEnvelope :=
  sortByCreatedAt (records.filter (matchesEventsQuery q))

/-- Whether a snapshot record matches a snapshot query. -/
def matchesSnapshotQuery (q : SnapshotQuery) (r : EntitySnapshotEnvelope) : Bool :=
  r.entityID == q.entityID && r.entityTypeName == q.entityTypeName &&
    r.kind == q.kind

/-- The most recent element of a list of snapshots (by `createdAt`),
or `none` when the list is empty. -/
def latestOf : List EntitySnapshotEnvelope → Option EntitySnapshotEnvelope
  | [] => none
  | x :: xs =>
    match latestOf xs with
    | none => some x
    | some b => if tsLt x.createdAt b.createdAt then some b else some x

/-- Modelled from the spec: the Registry Port's `queryLatestSnapshot`
(the registry package is not under `src/`): the single most recent
matching snapshot, or the explicit absent value — never a default. -/
def queryLatestSnapshot (records : List EntitySnapshotEnvelope)
    (q : SnapshotQuery) : Option EntitySnapshotEnvelope :=
  latestOf (records.filter (matchesSnapshotQuery q))

/-! ## Step lemmas for the retry wrapper -/

lemma retryIfError_ok (op : St → Except Err Unit × St) (ck : Err → Bool)
    (m : Nat) (s : St) (hm : 1 ≤ m) (h : (op s).1 = Except.ok ()) :
    retryIfError op ck m s = (Except.ok (), (op s).2) := by
  cases m with
  | zero => omega
  | succ n =>
    rcases hop : op s with ⟨r, s'⟩
    rw [hop] at h
    simp only at h
    subst h
    simp [retryIfError, hop]

lemma retryIfError_err_one (op : St → Except Err Unit × St) (ck : Err → Bool)
    (s : St) (e : Err) (h : (op s).1 = Except.error e) :
    retryIfError op ck 1 s = (Except.error e, (op s).2) := by
  rcases hop : op s with ⟨r, s'⟩
  rw [hop] at h
  simp only at h
  subst h
  simp [retryIfError, hop]

lemma retryIfError_conflict_step (op : St → Except Err Unit × St)
    (m : Nat) (s : St) (hm : 1 ≤ m) (h : (op s).1 = Except.error Err.conflict) :
    retryIfError op isConflict (m + 1) s = retryIfError op isConflict m (op s).2 := by
  rcases hop : op s with ⟨r, s'⟩
  rw [hop] at h
  simp only at h
  subst h
  simp only [retryIfError, hop, isConflict, if_true]
  rw [if_neg (by omega)]

lemma retryIfError_other (op : St → Except Err Unit × St)
    (m : Nat) (s : St) (e : Err) (hm : 1 ≤ m)
    (h : (op s).1 = Except.error e) (he : isConflict e = false) :
    retryIfError op isConflict m s = (Except.error e, (op s).2) := by
  cases m with
  | zero => omega
  | succ n =>
    rcases hop : op s with ⟨r, s'⟩
    rw [hop] at h
    simp only at h
    subst h
    simp [retryIfError, hop, he]

/-! ## One-step behaviour of the store operations -/

lemma persistEvent_ok (w : World) (e : NonPersistedEventEnvelope) (s : St)
    (h : w.storeResult s.storeCalls = none) :
    persistEvent w e s = (Except.ok (), { s with
      clockCalls := s.clockCalls + 1
      storeCalls := s.storeCalls + 1
      storeAttempts := s.storeAttempts ++ [toPersisted e (w.now s.clockCalls)]
      storedEvents := s.storedEvents ++ [toPersisted e (w.now s.clockCalls)] }) := by
  simp [persistEvent, storeEventRecord, h]

lemma persistEvent_err (w : World) (e : NonPersistedEventEnvelope) (s : St)
    (err : Err) (h : w.storeResult s.storeCalls = some err) :
    persistEvent w e s = (Except.error err, { s with
      clockCalls := s.clockCalls + 1
      storeCalls := s.storeCalls + 1
      storeAttempts := s.storeAttempts ++ [toPersisted e (w.now s.clockCalls)] }) := by
  simp [persistEvent, storeEventRecord, h]

lemma storeSnapshotRecord_ok (w : World) (r : EntitySnapshotEnvelope) (s : St)
    (h : w.storeResult s.storeCalls = none) :
    storeSnapshotRecord w r s = (Except.ok (), { s with
      storeCalls := s.storeCalls + 1
      snapshotAttempts := s.snapshotAttempts ++ [r]
      storedSnapshots := s.storedSnapshots ++ [r] }) := by
  simp [storeSnapshotRecord, h]

lemma storeSnapshotRecord_err (w : World) (r : EntitySnapshotEnvelope) (s : St)
    (err : Err) (h : w.storeResult s.storeCalls = some err) :
    storeSnapshotRecord w r s = (Except.error err, { s with
      storeCalls := s.storeCalls + 1
      snapshotAttempts := s.snapshotAttempts ++ [r] }) := by
  simp [storeSnapshotRecord, h]

/-! ## Retrying `persistEvent`: full characterization -/

/-- The records a run of `n` persist attempts hands to the registry, when
the wall clock has been read `c0` times before: attempt `j` carries the
fresh timestamp of clock read `c0 + j`. -/
def attemptsFrom (w : World) (e : NonPersistedEventEnvelope) (c0 n : Nat) :
    List EventEnvelope :=
  (List.range n).map (fun j => toPersisted e (w.now (c0 + j)))

lemma attemptsFrom_zero (w : World) (e : NonPersistedEventEnvelope) (c0 : Nat) :
    attemptsFrom w e c0 0 = [] := rfl

lemma attemptsFrom_one (w : World) (e : NonPersistedEventEnvelope) (c0 : Nat) :
    attemptsFrom w e c0 1 = [toPersisted e (w.now c0)] := rfl

lemma attemptsFrom_succ (w : World) (e : NonPersistedEventEnvelope) (c0 n : Nat) :
    attemptsFrom w e c0 (n + 1) =
      toPersisted e (w.now c0) :: attemptsFrom w e (c0 + 1) n := by
  have harg : (fun j : Nat => toPersisted e (w.now (c0 + (j + 1)))) =
      (fun j : Nat => toPersisted e (w.now (c0 + 1 + j))) := by
    funext j
    have h2 : c0 + (j + 1) = c0 + 1 + j := by omega
    rw [h2]
  simp [attemptsFrom, List.range_succ_eq_map, List.map_map, Function.comp_def, harg]

lemma retry_persistEvent_spec (w : World) (e : NonPersistedEventEnvelope) :
    ∀ m : Nat, 1 ≤ m → ∀ s : St,
    ∃ n : Nat, 1 ≤ n ∧ n ≤ m ∧
      (retryIfError (persistEvent w e) isConflict m s).2.clockCalls = s.clockCalls + n ∧
      (retryIfError (persistEvent w e) isConflict m s).2.storeCalls = s.storeCalls + n ∧
      (retryIfError (persistEvent w e) isConflict m s).2.storeAttempts =
        s.storeAttempts ++ attemptsFrom w e s.clockCalls n ∧
      (retryIfError (persistEvent w e) isConflict m s).2.dispatchCalls = s.dispatchCalls ∧
      (retryIfError (persistEvent w e) isConflict m s).2.snapshotAttempts = s.snapshotAttempts ∧
      (retryIfError (persistEvent w e) isConflict m s).2.storedSnapshots = s.storedSnapshots ∧
      (((retryIfError (persistEvent w e) isConflict m s).1 = Except.ok () ∧
        (retryIfError (persistEvent w e) isConflict m s).2.storedEvents =
          s.storedEvents ++ [toPersisted e (w.now (s.clockCalls + (n - 1)))]) ∨
       (∃ err : Err, (retryIfError (persistEvent w e) isConflict m s).1 = Except.error err ∧
        (retryIfError (persistEvent w e) isConflict m s).2.storedEvents = s.storedEvents)) := by
  intro m
  induction m with
  | zero => intro h; omega
  | succ m' ih =>
    intro _ s
    rcases hres : w.storeResult s.storeCalls with _ | err
    · -- first attempt succeeds
      have hop := persistEvent_ok w e s hres
      have h1 : (persistEvent w e s).1 = Except.ok () := by rw [hop]
      rw [retryIfError_ok (persistEvent w e) isConflict (m' + 1) s (by omega) h1]
      refine ⟨1, by omega, by omega, ?_⟩
      rw [hop]
      simp [attemptsFrom_one]
    · -- first attempt fails
      have hop := persistEvent_err w e s err hres
      have h1 : (persistEvent w e s).1 = Except.error err := by rw [hop]
      rcases hck : isConflict err with _ | _
      · -- non-conflict failure: propagates immediately
        rw [retryIfError_other (persistEvent w e) (m' + 1) s err (by omega) h1 hck]
        refine ⟨1, by omega, by omega, ?_⟩
        rw [hop]
        simp [attemptsFrom_one]
      · -- conflict failure
        have herr : err = Err.conflict := by
          cases err with
          | conflict => rfl
          | registryFailure msg => simp [isConflict] at hck
          | dispatchFailure msg => simp [isConflict] at hck
        subst herr
        by_cases hm' : 1 ≤ m'
        · -- retry: step into the remaining attempts
          rw [retryIfError_conflict_step (persistEvent w e) m' s hm' h1, hop]
          obtain ⟨n, hn1, hnm, hclock, hstore, hatt, hdisp, hsnapA, hsnapS, hout⟩ :=
            ih hm' { s with
              clockCalls := s.clockCalls + 1
              storeCalls := s.storeCalls + 1
              storeAttempts := s.storeAttempts ++ [toPersisted e (w.now s.clockCalls)] }
          refine ⟨n + 1, by omega, by omega, ?_, ?_, ?_, ?_, ?_, ?_, ?_⟩
          · rw [hclock]; simp; omega
          · rw [hstore]; simp; omega
          · rw [hatt]
            simp only [attemptsFrom_succ]
            simp
          · rw [hdisp]
          · rw [hsnapA]
          · rw [hsnapS]
          · rcases hout with ⟨hok, hstored⟩ | ⟨err', herr', hstored⟩
            · left
              refine ⟨hok, ?_⟩
              rw [hstored]
              simp only
              have : s.clockCalls + 1 + (n - 1) = s.clockCalls + (n + 1 - 1) := by omega
              rw [this]
            · right
              exact ⟨err', herr', by rw [hstored]⟩
        · -- last attempt: the conflict propagates
          have hm0 : m' = 0 := by omega
          subst hm0
          rw [retryIfError_err_one (persistEvent w e) isConflict s Err.conflict h1, hop]
          refine ⟨1, by omega, by omega, ?_⟩
          simp [attemptsFrom_one]

lemma erase_toPersisted (e : NonPersistedEventEnvelope) (ts : Timestamp) :
    (toPersisted e ts).erase = e := rfl

lemma attemptsFrom_map_erase (w : World) (e : NonPersistedEventEnvelope) (c0 n : Nat) :
    (attemptsFrom w e c0 n).map EventEnvelope.erase = List.replicate n e := by
  simp [attemptsFrom, List.map_map, Function.comp_def, erase_toPersisted,
    List.map_const']

/-! ## The dispatch call -/

lemma dispatchBatch_ok (w : World) (b : List NonPersistedEventEnvelope) (s : St)
    (h : w.dispatchResult s.dispatchCalls.length = none) :
    dispatchBatch w b s =
      (Except.ok (), { s with dispatchCalls := s.dispatchCalls ++ [b] }) := by
  simp [dispatchBatch, h]

lemma dispatchBatch_err (w : World) (b : List NonPersistedEventEnvelope) (s : St)
    (e : Err) (h : w.dispatchResult s.dispatchCalls.length = some e) :
    dispatchBatch w b s =
      (Except.error e, { s with dispatchCalls := s.dispatchCalls ++ [b] }) := by
  simp [dispatchBatch, h]

/-! ## The sequential store loop on a successful run -/

lemma storeEventsGo_ok_spec (w : World) (maxAttempts : Nat) (hm : 1 ≤ maxAttempts) :
    ∀ (envs : List NonPersistedEventEnvelope) (s : St),
    (storeEventsGo w maxAttempts envs s).1 = Except.ok () →
    ∃ cnts : List Nat, cnts.length = envs.length ∧
      (∀ c ∈ cnts, 1 ≤ c ∧ c ≤ maxAttempts) ∧
      (storeEventsGo w maxAttempts envs s).2.storedEvents.map EventEnvelope.erase =
        s.storedEvents.map EventEnvelope.erase ++ envs ∧
      (storeEventsGo w maxAttempts envs s).2.storeAttempts.map EventEnvelope.erase =
        s.storeAttempts.map EventEnvelope.erase ++
          (List.zipWith List.replicate cnts envs).flatten ∧
      (storeEventsGo w maxAttempts envs s).2.dispatchCalls = s.dispatchCalls ∧
      (storeEventsGo w maxAttempts envs s).2.storeCalls = s.storeCalls + cnts.sum := by
  intro envs
  induction envs with
  | nil =>
    intro s _
    exact ⟨[], by simp [storeEventsGo]⟩
  | cons e rest ih =>
    intro s hok
    obtain ⟨n, hn1, hnm, hclock, hstore, hatt, hdisp, _, _, hout⟩ :=
      retry_persistEvent_spec w e maxAttempts hm s
    rcases hr : retryIfError (persistEvent w e) isConflict maxAttempts s with ⟨r1, s1⟩
    rw [hr] at hclock hstore hatt hdisp hout
    simp only at hclock hstore hatt hdisp hout
    rcases r1 with err | u
    · -- the retries for this envelope failed: the loop aborts
      have hloop : storeEventsGo w maxAttempts (e :: rest) s = (Except.error err, s1) := by
        simp [storeEventsGo, hr]
      rw [hloop] at hok
      simp at hok
    · -- this envelope stored; the loop moves to the rest
      rcases hout with ⟨_, hstored⟩ | ⟨err', herr', _⟩
      · have hloop : storeEventsGo w maxAttempts (e :: rest) s =
            storeEventsGo w maxAttempts rest s1 := by
          simp [storeEventsGo, hr]
        rw [hloop] at hok ⊢
        obtain ⟨cnts, hlen, hbound, hstored', hatt', hdisp', hcalls'⟩ := ih s1 hok
        refine ⟨n :: cnts, by simp [hlen], ?_, ?_, ?_, ?_, ?_⟩
        · intro c hc
          rcases List.mem_cons.mp hc with rfl | hc'
          · exact ⟨hn1, hnm⟩
          · exact hbound c hc'
        · rw [hstored', hstored]
          simp [erase_toPersisted]
        · rw [hatt', hatt]
          simp [attemptsFrom_map_erase]
        · rw [hdisp', hdisp]
        · rw [hcalls', hstore]
          simp [Nat.add_assoc]
      · simp at herr'

lemma storeEvents_ok_split (w : World) (maxAttempts : Nat)
    (envs : List NonPersistedEventEnvelope) (s : St)
    (h : (storeEvents w maxAttempts envs s).1 = Except.ok ()) :
    (storeEventsGo w maxAttempts envs s).1 = Except.ok () ∧
    storeEvents w maxAttempts envs s =
      dispatchBatch w envs (storeEventsGo w maxAttempts envs s).2 := by
  rcases hg : storeEventsGo w maxAttempts envs s with ⟨r1, s1⟩
  rcases r1 with err | u
  · have : storeEvents w maxAttempts envs s = (Except.error err, s1) := by
      simp [storeEvents, hg]
    rw [this] at h
    simp at h
  · exact ⟨rfl, by simp [storeEvents, hg]⟩

lemma dispatchBatch_snd (w : World) (b : List NonPersistedEventEnvelope) (s : St) :
    (dispatchBatch w b s).2 = { s with dispatchCalls := s.dispatchCalls ++ [b] } := by
  rcases h : w.dispatchResult s.dispatchCalls.length with _ | e
  · rw [dispatchBatch_ok w b s h]
  · rw [dispatchBatch_err w b s e h]

/-! ## Sample data for the concrete witnesses -/

/-- A sample non-persisted event envelope with payload `v`. -/
def sampleEvent (v : String) : NonPersistedEventEnvelope :=
  ⟨"Cart", "cart-1", "event", v, "2024-01-01T00:00:00.000Z", "req-1"⟩

/-- A sample wall clock: distinct timestamp per read. -/
def sampleClock : Nat → Timestamp :=
  fun n => "2024-01-02T00:00:00." ++ toString n ++ "Z"

/-- A world where only the second store call (index 1) hits a conflict
and the dispatch sink always succeeds. -/
def worldRetryOnce : World :=
  ⟨sampleClock, fun i => if i = 1 then some Err.conflict else none, fun _ => none⟩

/-! ## Claim C1 -/

/-- C1: for every batch passed to `storeEvents`, envelopes are persisted
strictly sequentially in input order — on a successful run the durable log
grows by exactly the input envelopes in input order, and the store
attempts form consecutive per-envelope groups (all attempts for envelope
`i` precede any attempt for envelope `i+1`), each group being one
envelope's store call wrapped in the retry policy for the conflict kind
(so between 1 and `maxAttempts` attempts, ending in that envelope's
success before the next envelope is started). -/
theorem storeEvents_sequential_in_order (w : World) (maxAttempts : Nat)
    (envs : List NonPersistedEventEnvelope) (s : St)
    (hm : 1 ≤ maxAttempts)
    (hok : (storeEvents w maxAttempts envs s).1 = Except.ok ()) :
    (storeEvents w maxAttempts envs s).2.storedEvents.map EventEnvelope.erase =
      s.storedEvents.map EventEnvelope.erase ++ envs ∧
    ∃ cnts : List Nat, cnts.length = envs.length ∧
      (∀ c ∈ cnts, 1 ≤ c ∧ c ≤ maxAttempts) ∧
      (storeEvents w maxAttempts envs s).2.storeAttempts.map EventEnvelope.erase =
        s.storeAttempts.map EventEnvelope.erase ++
          (List.zipWith List.replicate cnts envs).flatten := by
  obtain ⟨hgo, hsplit⟩ := storeEvents_ok_split w maxAttempts envs s hok
  obtain ⟨cnts, hlen, hbound, hstored, hatt, _, _⟩ :=
    storeEventsGo_ok_spec w maxAttempts hm envs s hgo
  rw [hsplit, dispatchBatch_snd]
  exact ⟨hstored, cnts, hlen, hbound, hatt⟩

/-- Witness for C1 at a concrete input: two envelopes, where the second
envelope's first store attempt conflicts and its retry succeeds. -/
theorem storeEvents_sequential_in_order_witness :
    (storeEvents worldRetryOnce 2 [sampleEvent "a", sampleEvent "b"]
        St.init).2.storedEvents.map EventEnvelope.erase =
      St.init.storedEvents.map EventEnvelope.erase ++
        [sampleEvent "a", sampleEvent "b"] ∧
    ∃ cnts : List Nat, cnts.length = [sampleEvent "a", sampleEvent "b"].length ∧
      (∀ c ∈ cnts, 1 ≤ c ∧ c ≤ 2) ∧
      (storeEvents worldRetryOnce 2 [sampleEvent "a", sampleEvent "b"]
          St.init).2.storeAttempts.map EventEnvelope.erase =
        St.init.storeAttempts.map EventEnvelope.erase ++
          (List.zipWith List.replicate cnts
            [sampleEvent "a", sampleEvent "b"]).flatten :=
  storeEvents_sequential_in_order worldRetryOnce 2
    [sampleEvent "a", sampleEvent "b"] St.init (by decide) (by rfl)

/-! ## Claim C2 -/

/-- C2: on every batch on which `storeEvents` succeeds, the dispatch sink
is invoked exactly once, only after every envelope of the batch has been
durably stored (the state handed to the dispatch call already holds the
whole batch in its durable log and records no dispatch yet), and it
receives the full original batch, in original order, in its original
non-persisted form. -/
theorem storeEvents_dispatch_after_success (w : World) (maxAttempts : Nat)
    (envs : List NonPersistedEventEnvelope) (s : St)
    (hm : 1 ≤ maxAttempts)
    (hok : (storeEvents w maxAttempts envs s).1 = Except.ok ()) :
    ∃ s1 : St,
      storeEventsGo w maxAttempts envs s = (Except.ok (), s1) ∧
      s1.storedEvents.map EventEnvelope.erase =
        s.storedEvents.map EventEnvelope.erase ++ envs ∧
      s1.dispatchCalls = s.dispatchCalls ∧
      storeEvents w maxAttempts envs s = dispatchBatch w envs s1 ∧
      (storeEvents w maxAttempts envs s).2.dispatchCalls =
        s.dispatchCalls ++ [envs] := by
  obtain ⟨hgo, hsplit⟩ := storeEvents_ok_split w maxAttempts envs s hok
  obtain ⟨_, _, _, hstored, _, hdisp, _⟩ :=
    storeEventsGo_ok_spec w maxAttempts hm envs s hgo
  refine ⟨(storeEventsGo w maxAttempts envs s).2, ?_, hstored, hdisp, hsplit, ?_⟩
  · rcases hg : storeEventsGo w maxAttempts envs s with ⟨r1, s1⟩
    rw [hg] at hgo
    simp only at hgo
    rw [hgo]
  · rw [hsplit, dispatchBatch_snd]
    simp only
    rw [hdisp]

/-- Witness for C2 at a concrete input. -/
theorem storeEvents_dispatch_after_success_witness :
    ∃ s1 : St,
      storeEventsGo worldRetryOnce 2 [sampleEvent "a", sampleEvent "b"] St.init =
        (Except.ok (), s1) ∧
      s1.storedEvents.map EventEnvelope.erase =
        St.init.storedEvents.map EventEnvelope.erase ++
          [sampleEvent "a", sampleEvent "b"] ∧
      s1.dispatchCalls = St.init.dispatchCalls ∧
      storeEvents worldRetryOnce 2 [sampleEvent "a", sampleEvent "b"] St.init =
        dispatchBatch worldRetryOnce [sampleEvent "a", sampleEvent "b"] s1 ∧
      (storeEvents worldRetryOnce 2 [sampleEvent "a", sampleEvent "b"]
          St.init).2.dispatchCalls =
        St.init.dispatchCalls ++ [[sampleEvent "a", sampleEvent "b"]] :=
  storeEvents_dispatch_after_success worldRetryOnce 2
    [sampleEvent "a", sampleEvent "b"] St.init (by decide) (by rfl)

/-! ## Claim C10 -/

/-- C10: on the empty batch, `storeEvents` performs no registry store
call, still invokes the dispatch sink exactly once with the empty
sequence, and succeeds exactly when that dispatch call succeeds. -/
theorem storeEvents_empty_batch (w : World) (maxAttempts : Nat) (s : St) :
    (storeEvents w maxAttempts [] s).2.storeCalls = s.storeCalls ∧
    (storeEvents w maxAttempts [] s).2.storeAttempts = s.storeAttempts ∧
    (storeEvents w maxAttempts [] s).2.storedEvents = s.storedEvents ∧
    (storeEvents w maxAttempts [] s).2.dispatchCalls = s.dispatchCalls ++ [[]] ∧
    ((storeEvents w maxAttempts [] s).1 = Except.ok ()
      ↔ w.dispatchResult s.dispatchCalls.length = none) := by
  have hempty : storeEvents w maxAttempts [] s = dispatchBatch w [] s := by
    simp [storeEvents, storeEventsGo]
  rw [hempty]
  rcases h : w.dispatchResult s.dispatchCalls.length with _ | e
  · rw [dispatchBatch_ok w [] s h]
    simp [h]
  · rw [dispatchBatch_err w [] s e h]
    simp [h]

/-! ## Claim C5 -/

/-- C5: `persistedAt` is read from the wall clock immediately before each
store call and is fresh on every retry attempt: on a run of the retry
wrapper around `persistEvent`, the `j`-th attempt hands the registry
exactly the input envelope extended with the timestamp of the `j`-th
clock read of the run (never a timestamp of an earlier attempt), and the
clock is read exactly once per attempt. -/
theorem persistedAt_fresh_per_attempt (w : World) (e : NonPersistedEventEnvelope)
    (maxAttempts : Nat) (s : St) (hm : 1 ≤ maxAttempts) :
    ∃ n : Nat, 1 ≤ n ∧ n ≤ maxAttempts ∧
      (retryIfError (persistEvent w e) isConflict maxAttempts s).2.storeAttempts =
        s.storeAttempts ++
          (List.range n).map (fun j => toPersisted e (w.now (s.clockCalls + j))) ∧
      (retryIfError (persistEvent w e) isConflict maxAttempts s).2.clockCalls =
        s.clockCalls + n := by
  obtain ⟨n, hn1, hnm, hclock, _, hatt, _, _, _, _⟩ :=
    retry_persistEvent_spec w e maxAttempts hm s
  exact ⟨n, hn1, hnm, hatt, hclock⟩

/-- A world for the C5 witness: the first store call conflicts, the
second succeeds. -/
def worldFirstConflicts : World :=
  ⟨sampleClock, fun i => if i = 0 then some Err.conflict else none, fun _ => none⟩

/-- Witness for C5 at a concrete input: one conflict then success, so two
attempts carrying the two distinct fresh timestamps. -/
theorem persistedAt_fresh_per_attempt_witness :
    ∃ n : Nat, 1 ≤ n ∧ n ≤ 2 ∧
      (retryIfError (persistEvent worldFirstConflicts (sampleEvent "a"))
          isConflict 2 St.init).2.storeAttempts =
        St.init.storeAttempts ++
          (List.range n).map
            (fun j => toPersisted (sampleEvent "a")
              (worldFirstConflicts.now (St.init.clockCalls + j))) ∧
      (retryIfError (persistEvent worldFirstConflicts (sampleEvent "a"))
          isConflict 2 St.init).2.clockCalls = St.init.clockCalls + n :=
  persistedAt_fresh_per_attempt worldFirstConflicts (sampleEvent "a") 2 St.init
    (by decide)

/-! ## Claim C9 -/

lemma retry_persistEvent_dispatchCalls (w : World) (e : NonPersistedEventEnvelope)
    (m : Nat) (s : St) :
    (retryIfError (persistEvent w e) isConflict m s).2.dispatchCalls =
      s.dispatchCalls := by
  rcases Nat.eq_zero_or_pos m with hz | hp
  · subst hz
    rfl
  · obtain ⟨_, _, _, _, _, _, hdisp, _, _, _⟩ :=
      retry_persistEvent_spec w e m hp s
    exact hdisp

lemma storeEventsGo_dispatchCalls (w : World) (m : Nat) :
    ∀ (envs : List NonPersistedEventEnvelope) (s : St),
    (storeEventsGo w m envs s).2.dispatchCalls = s.dispatchCalls := by
  intro envs
  induction envs with
  | nil => intro s; rfl
  | cons e rest ih =>
    intro s
    have hd := retry_persistEvent_dispatchCalls w e m s
    rcases hr : retryIfError (persistEvent w e) isConflict m s with ⟨r1, s1⟩
    rw [hr] at hd
    simp only at hd
    rcases r1 with err | u
    · simp [storeEventsGo, hr, hd]
    · have : storeEventsGo w m (e :: rest) s = storeEventsGo w m rest s1 := by
        simp [storeEventsGo, hr]
      rw [this, ih s1, hd]

lemma storeEvents_dispatchCalls (w : World) (m : Nat)
    (envs : List NonPersistedEventEnvelope) (s : St) :
    (storeEvents w m envs s).2.dispatchCalls = s.dispatchCalls ∨
    (storeEvents w m envs s).2.dispatchCalls = s.dispatchCalls ++ [envs] := by
  have hd := storeEventsGo_dispatchCalls w m envs s
  rcases hg : storeEventsGo w m envs s with ⟨r1, s1⟩
  rw [hg] at hd
  simp only at hd
  rcases r1 with err | u
  · left
    have : storeEvents w m envs s = (Except.error err, s1) := by
      simp [storeEvents, hg]
    rw [this, hd]
  · right
    have : storeEvents w m envs s = dispatchBatch w envs s1 := by
      simp [storeEvents, hg]
    rw [this, dispatchBatch_snd]
    simp only
    rw [hd]

/-- C9: no operation mutates an envelope after submission.  The record
`persistEvent` hands to the registry is a copy of the input envelope with
`persistedAt` added (it agrees with the input on every other field), and
any batch a run of `storeEvents` ever hands to the dispatch sink is the
caller's original list of non-persisted envelopes, unchanged — in
particular still of the `persistedAt`-free shape. -/
theorem envelopes_never_mutated (w : World) (maxAttempts : Nat)
    (envs : List NonPersistedEventEnvelope) (s : St)
    (e : NonPersistedEventEnvelope) (ts : Timestamp)
    (b : List NonPersistedEventEnvelope)
    (hb : b ∈ (storeEvents w maxAttempts envs s).2.dispatchCalls) :
    (toPersisted e ts).erase = e ∧
    (toPersisted e ts).persistedAt = ts ∧
    (persistEvent w e s).2.storeAttempts =
      s.storeAttempts ++ [toPersisted e (w.now s.clockCalls)] ∧
    (b ∈ s.dispatchCalls ∨ b = envs) := by
  refine ⟨rfl, rfl, ?_, ?_⟩
  · rcases h : w.storeResult s.storeCalls with _ | err
    · rw [persistEvent_ok w e s h]
    · rw [persistEvent_err w e s err h]
  · rcases storeEvents_dispatchCalls w maxAttempts envs s with hcase | hcase
    · rw [hcase] at hb
      exact Or.inl hb
    · rw [hcase] at hb
      rcases List.mem_append.mp hb with h1 | h1
      · exact Or.inl h1
      · exact Or.inr (by simpa using h1)

/-- Witness for C9 at a concrete input. -/
theorem envelopes_never_mutated_witness :
    (toPersisted (sampleEvent "x") "2024-03-01T00:00:00.000Z").erase =
      sampleEvent "x" ∧
    (toPersisted (sampleEvent "x") "2024-03-01T00:00:00.000Z").persistedAt =
      "2024-03-01T00:00:00.000Z" ∧
    (persistEvent worldRetryOnce (sampleEvent "x") St.init).2.storeAttempts =
      St.init.storeAttempts ++
        [toPersisted (sampleEvent "x") (worldRetryOnce.now St.init.clockCalls)] ∧
    ([sampleEvent "a", sampleEvent "b"] ∈ St.init.dispatchCalls ∨
      [sampleEvent "a", sampleEvent "b"] = [sampleEvent "a", sampleEvent "b"]) :=
  envelopes_never_mutated worldRetryOnce 2 [sampleEvent "a", sampleEvent "b"]
    St.init (sampleEvent "x") "2024-03-01T00:00:00.000Z"
    [sampleEvent "a", sampleEvent "b"] (by decide)

/-! ## Claim C3 -/

lemma retry_persistEvent_all_conflict (w : World) (e : NonPersistedEventEnvelope)
    (hconf : ∀ i : Nat, 1 ≤ i → w.storeResult i = some Err.conflict) :
    ∀ m : Nat, 1 ≤ m → ∀ s : St, 1 ≤ s.storeCalls →
    (retryIfError (persistEvent w e) isConflict m s).1 = Except.error Err.conflict ∧
    (retryIfError (persistEvent w e) isConflict m s).2.storeCalls = s.storeCalls + m ∧
    (retryIfError (persistEvent w e) isConflict m s).2.clockCalls = s.clockCalls + m ∧
    (retryIfError (persistEvent w e) isConflict m s).2.storeAttempts =
      s.storeAttempts ++ attemptsFrom w e s.clockCalls m ∧
    (retryIfError (persistEvent w e) isConflict m s).2.storedEvents = s.storedEvents ∧
    (retryIfError (persistEvent w e) isConflict m s).2.dispatchCalls =
      s.dispatchCalls := by
  intro m
  induction m with
  | zero => intro h; omega
  | succ m' ih =>
    intro _ s hs
    have hres : w.storeResult s.storeCalls = some Err.conflict := hconf s.storeCalls hs
    have hop := persistEvent_err w e s Err.conflict hres
    have h1 : (persistEvent w e s).1 = Except.error Err.conflict := by rw [hop]
    by_cases hm' : 1 ≤ m'
    · rw [retryIfError_conflict_step (persistEvent w e) m' s hm' h1, hop]
      obtain ⟨hfst, hstore, hclock, hatt, hstored, hdisp⟩ :=
        ih hm' { s with
          clockCalls := s.clockCalls + 1
          storeCalls := s.storeCalls + 1
          storeAttempts := s.storeAttempts ++ [toPersisted e (w.now s.clockCalls)] }
          (by simp)
      simp only at hstore hclock hatt hstored hdisp
      refine ⟨hfst, by rw [hstore]; omega, by rw [hclock]; omega, ?_, hstored, hdisp⟩
      rw [hatt]
      rw [attemptsFrom_succ]
      simp
    · have hm0 : m' = 0 := by omega
      subst hm0
      rw [retryIfError_err_one (persistEvent w e) isConflict s Err.conflict h1, hop]
      simp [attemptsFrom_one]

/-- C3: on a three-event batch where the first store succeeds and every
later store attempt hits the conflict error, `storeEvents` fails with the
conflict error after exhausting the retry bound on the second envelope;
the first event remains durably stored (no rollback), the third event's
store is never attempted (the attempt log holds only the first event and
the second event's `maxAttempts` tries), and the dispatch sink is never
invoked. -/
theorem partial_batch_durability (w : World) (maxAttempts : Nat)
    (e1 e2 e3 : NonPersistedEventEnvelope)
    (hm : 1 ≤ maxAttempts)
    (h0 : w.storeResult 0 = none)
    (hconf : ∀ i : Nat, 1 ≤ i → w.storeResult i = some Err.conflict) :
    (storeEvents w maxAttempts [e1, e2, e3] St.init).1 =
      Except.error Err.conflict ∧
    (storeEvents w maxAttempts [e1, e2, e3] St.init).2.storedEvents.map
      EventEnvelope.erase = [e1] ∧
    (storeEvents w maxAttempts [e1, e2, e3] St.init).2.storeAttempts.map
      EventEnvelope.erase = e1 :: List.replicate maxAttempts e2 ∧
    (storeEvents w maxAttempts [e1, e2, e3] St.init).2.dispatchCalls = [] := by
  -- the first envelope stores on its first attempt
  have hop1 := persistEvent_ok w e1 St.init h0
  have h11 : (persistEvent w e1 St.init).1 = Except.ok () := by rw [hop1]
  have hretry1 := retryIfError_ok (persistEvent w e1) isConflict maxAttempts St.init
    hm h11
  rw [hop1] at hretry1
  set s1 : St := { St.init with
    clockCalls := St.init.clockCalls + 1
    storeCalls := St.init.storeCalls + 1
    storeAttempts := St.init.storeAttempts ++ [toPersisted e1 (w.now St.init.clockCalls)]
    storedEvents := St.init.storedEvents ++ [toPersisted e1 (w.now St.init.clockCalls)] }
    with hs1
  -- the second envelope exhausts its retries
  obtain ⟨hfst2, hstore2, hclock2, hatt2, hstored2, hdisp2⟩ :=
    retry_persistEvent_all_conflict w e2 hconf maxAttempts hm s1 (by rw [hs1]; rfl)
  rcases hr2 : retryIfError (persistEvent w e2) isConflict maxAttempts s1 with ⟨r2, s2⟩
  rw [hr2] at hfst2 hstore2 hclock2 hatt2 hstored2 hdisp2
  simp only at hfst2 hstore2 hclock2 hatt2 hstored2 hdisp2
  subst hfst2
  -- the loop aborts, so does storeEvents, and the sink is never reached
  have hloop : storeEventsGo w maxAttempts [e1, e2, e3] St.init =
      (Except.error Err.conflict, s2) := by
    simp only [storeEventsGo, hretry1, hr2]
  have hfinal : storeEvents w maxAttempts [e1, e2, e3] St.init =
      (Except.error Err.conflict, s2) := by
    simp [storeEvents, hloop]
  rw [hfinal]
  refine ⟨rfl, ?_, ?_, ?_⟩
  · rw [hstored2]
    simp [St.init, erase_toPersisted]
  · rw [hatt2]
    simp [St.init, attemptsFrom_map_erase, erase_toPersisted]
  · rw [hdisp2]
    rfl

/-- A world for the C3 witness: only the very first store call succeeds,
every later one conflicts. -/
def worldOnlyFirstStoreOk : World :=
  ⟨sampleClock, fun i => if i = 0 then none else some Err.conflict, fun _ => none⟩

/-- Witness for C3 at a concrete input. -/
theorem partial_batch_durability_witness :
    (storeEvents worldOnlyFirstStoreOk 2
        [sampleEvent "a", sampleEvent "b", sampleEvent "c"] St.init).1 =
      Except.error Err.conflict ∧
    (storeEvents worldOnlyFirstStoreOk 2
        [sampleEvent "a", sampleEvent "b", sampleEvent "c"]
        St.init).2.storedEvents.map EventEnvelope.erase = [sampleEvent "a"] ∧
    (storeEvents worldOnlyFirstStoreOk 2
        [sampleEvent "a", sampleEvent "b", sampleEvent "c"]
        St.init).2.storeAttempts.map EventEnvelope.erase =
      sampleEvent "a" :: List.replicate 2 (sampleEvent "b") ∧
    (storeEvents worldOnlyFirstStoreOk 2
        [sampleEvent "a", sampleEvent "b", sampleEvent "c"]
        St.init).2.dispatchCalls = [] :=
  partial_batch_durability worldOnlyFirstStoreOk 2
    (sampleEvent "a") (sampleEvent "b") (sampleEvent "c")
    (by decide) (by rfl)
    (fun i hi => by
      show (if i = 0 then none else some Err.conflict) = some Err.conflict
      rw [if_neg (by omega)])

/-! ## Claim C4 -/

/-- A store oracle that fails with the conflict error on the first `k`
store calls and succeeds afterwards. -/
def conflictThenOk (k : Nat) : Nat → Option Err :=
  fun i => if i < k then some Err.conflict else none

/-- An operation that consumes one store call per invocation and, against
a `conflictThenOk k` oracle, fails with the conflict error exactly while
fewer than `k` store calls have happened. -/
def CountedConflictOp (op : St → Except Err Unit × St) (k : Nat) : Prop :=
  ∀ s : St,
    (op s).2.storeCalls = s.storeCalls + 1 ∧
    (s.storeCalls < k → (op s).1 = Except.error Err.conflict) ∧
    (k ≤ s.storeCalls → (op s).1 = Except.ok ())

lemma retry_counted (op : St → Except Err Unit × St) (k : Nat)
    (H : CountedConflictOp op k) :
    ∀ (m : Nat) (s : St), 1 ≤ m → s.storeCalls ≤ k →
    (k - s.storeCalls < m →
      (retryIfError op isConflict m s).1 = Except.ok () ∧
      (retryIfError op isConflict m s).2.storeCalls = k + 1) ∧
    (m ≤ k - s.storeCalls →
      (retryIfError op isConflict m s).1 = Except.error Err.conflict ∧
      (retryIfError op isConflict m s).2.storeCalls = s.storeCalls + m) := by
  intro m
  induction m with
  | zero => intro s h; omega
  | succ m' ih =>
    intro s _ hsk
    rcases Nat.lt_or_ge s.storeCalls k with hlt | hge
    · -- the next attempt still conflicts
      have herr : (op s).1 = Except.error Err.conflict := (H s).2.1 hlt
      have hcalls : (op s).2.storeCalls = s.storeCalls + 1 := (H s).1
      by_cases hm' : 1 ≤ m'
      · rw [retryIfError_conflict_step op m' s hm' herr]
        have := ih (op s).2 hm' (by omega)
        constructor
        · intro hlt'
          have h1 := this.1 (by omega)
          exact ⟨h1.1, h1.2⟩
        · intro hle'
          have h2 := this.2 (by omega)
          exact ⟨h2.1, by rw [h2.2, hcalls]; omega⟩
      · have hm0 : m' = 0 := by omega
        subst hm0
        rw [retryIfError_err_one op isConflict s Err.conflict herr]
        constructor
        · intro h1
          omega
        · intro _
          exact ⟨rfl, by rw [hcalls]⟩
    · -- the oracle is past its conflicts: the attempt succeeds
      have hok : (op s).1 = Except.ok () := (H s).2.2 hge
      have hcalls : (op s).2.storeCalls = s.storeCalls + 1 := (H s).1
      rw [retryIfError_ok op isConflict (m' + 1) s (by omega) hok]
      have hk : s.storeCalls = k := by omega
      constructor
      · intro _
        exact ⟨rfl, by rw [hcalls, hk]⟩
      · intro hle
        omega

lemma persistEvent_counted (w : World) (e : NonPersistedEventEnvelope) (k : Nat)
    (hw : ∀ i, w.storeResult i = conflictThenOk k i) :
    CountedConflictOp (persistEvent w e) k := by
  intro s
  rcases Nat.lt_or_ge s.storeCalls k with hlt | hge
  · have hres : w.storeResult s.storeCalls = some Err.conflict := by
      rw [hw s.storeCalls]
      simp [conflictThenOk, hlt]
    rw [persistEvent_err w e s Err.conflict hres]
    exact ⟨rfl, fun _ => rfl, fun h => by omega⟩
  · have hres : w.storeResult s.storeCalls = none := by
      rw [hw s.storeCalls]
      simp [conflictThenOk]
      omega
    rw [persistEvent_ok w e s hres]
    exact ⟨rfl, fun h => by omega, fun _ => rfl⟩

lemma storeSnapshotRecord_counted (w : World) (r : EntitySnapshotEnvelope) (k : Nat)
    (hw : ∀ i, w.storeResult i = conflictThenOk k i) :
    CountedConflictOp (storeSnapshotRecord w r) k := by
  intro s
  rcases Nat.lt_or_ge s.storeCalls k with hlt | hge
  · have hres : w.storeResult s.storeCalls = some Err.conflict := by
      rw [hw s.storeCalls]
      simp [conflictThenOk, hlt]
    rw [storeSnapshotRecord_err w r s Err.conflict hres]
    exact ⟨rfl, fun _ => rfl, fun h => by omega⟩
  · have hres : w.storeResult s.storeCalls = none := by
      rw [hw s.storeCalls]
      simp [conflictThenOk]
      omega
    rw [storeSnapshotRecord_ok w r s hres]
    exact ⟨rfl, fun h => by omega, fun _ => rfl⟩

/-- C4: retry boundedness and non-retry of unrelated errors.  Against a
store stub that fails with the conflict error `k` times and then
succeeds, `storeSnapshot` and `storeEvents` succeed exactly when
`k < maxAttempts` (performing `k + 1` store calls), and when
`maxAttempts ≤ k` the conflict error propagates after exactly
`maxAttempts` store calls — no attempt beyond the bound.  Against a stub
whose first failure is of any other kind, that error propagates
immediately after a single store call: zero retries. -/
theorem retry_bounded_and_nonconflict_immediate
    (w w' : World) (k maxAttempts : Nat) (msg : String)
    (e : NonPersistedEventEnvelope) (snap : EntitySnapshotEnvelope)
    (hm : 1 ≤ maxAttempts)
    (hw : ∀ i, w.storeResult i = conflictThenOk k i)
    (hd : w.dispatchResult 0 = none)
    (hw' : w'.storeResult 0 = some (Err.registryFailure msg)) :
    (k < maxAttempts →
      (storeSnapshot w maxAttempts snap St.init).1 = Except.ok () ∧
      (storeSnapshot w maxAttempts snap St.init).2.storeCalls = k + 1) ∧
    (maxAttempts ≤ k →
      (storeSnapshot w maxAttempts snap St.init).1 = Except.error Err.conflict ∧
      (storeSnapshot w maxAttempts snap St.init).2.storeCalls = maxAttempts) ∧
    (k < maxAttempts →
      (storeEvents w maxAttempts [e] St.init).1 = Except.ok () ∧
      (storeEvents w maxAttempts [e] St.init).2.storeCalls = k + 1) ∧
    (maxAttempts ≤ k →
      (storeEvents w maxAttempts [e] St.init).1 = Except.error Err.conflict ∧
      (storeEvents w maxAttempts [e] St.init).2.storeCalls = maxAttempts) ∧
    ((storeSnapshot w' maxAttempts snap St.init).1 =
        Except.error (Err.registryFailure msg) ∧
      (storeSnapshot w' maxAttempts snap St.init).2.storeCalls = 1) ∧
    ((storeEvents w' maxAttempts [e] St.init).1 =
        Except.error (Err.registryFailure msg) ∧
      (storeEvents w' maxAttempts [e] St.init).2.storeCalls = 1) := by
  have h0 : St.init.storeCalls = 0 := rfl
  have Rs := retry_counted (storeSnapshotRecord w snap) k
    (storeSnapshotRecord_counted w snap k hw) maxAttempts St.init hm
    (by rw [h0]; omega)
  rw [h0, Nat.sub_zero, Nat.zero_add] at Rs
  have Re := retry_counted (persistEvent w e) k
    (persistEvent_counted w e k hw) maxAttempts St.init hm
    (by rw [h0]; omega)
  rw [h0, Nat.sub_zero, Nat.zero_add] at Re
  have hdc := retry_persistEvent_dispatchCalls w e maxAttempts St.init
  rcases hr : retryIfError (persistEvent w e) isConflict maxAttempts St.init
    with ⟨r1, s1⟩
  rw [hr] at Re hdc
  simp only at Re hdc
  refine ⟨?_, ?_, ?_, ?_, ?_, ?_⟩
  · intro hk
    exact Rs.1 hk
  · intro hk
    exact Rs.2 hk
  · intro hk
    obtain ⟨hok1, hcalls1⟩ := Re.1 hk
    subst hok1
    have hgo : storeEventsGo w maxAttempts [e] St.init = (Except.ok (), s1) := by
      simp [storeEventsGo, hr]
    have hse : storeEvents w maxAttempts [e] St.init =
        dispatchBatch w [e] s1 := by
      simp [storeEvents, hgo]
    have hlen : s1.dispatchCalls.length = 0 := by rw [hdc]; rfl
    have hdisp : w.dispatchResult s1.dispatchCalls.length = none := by
      rw [hlen]
      exact hd
    rw [hse, dispatchBatch_ok w [e] s1 hdisp]
    exact ⟨rfl, hcalls1⟩
  · intro hk
    obtain ⟨herr1, hcalls1⟩ := Re.2 hk
    subst herr1
    have hgo : storeEventsGo w maxAttempts [e] St.init =
        (Except.error Err.conflict, s1) := by
      simp [storeEventsGo, hr]
    have hse : storeEvents w maxAttempts [e] St.init =
        (Except.error Err.conflict, s1) := by
      simp [storeEvents, hgo]
    rw [hse]
    exact ⟨rfl, hcalls1⟩
  · have hsr := storeSnapshotRecord_err w' snap St.init (Err.registryFailure msg) hw'
    have h1 : (storeSnapshotRecord w' snap St.init).1 =
        Except.error (Err.registryFailure msg) := by rw [hsr]
    have hrr := retryIfError_other (storeSnapshotRecord w' snap) maxAttempts St.init
      (Err.registryFailure msg) hm h1 rfl
    have hdef : storeSnapshot w' maxAttempts snap St.init =
        retryIfError (storeSnapshotRecord w' snap) isConflict maxAttempts St.init :=
      rfl
    rw [hdef, hrr, hsr]
    exact ⟨rfl, rfl⟩
  · have hpe := persistEvent_err w' e St.init (Err.registryFailure msg) hw'
    have h1 : (persistEvent w' e St.init).1 =
        Except.error (Err.registryFailure msg) := by rw [hpe]
    have hrr := retryIfError_other (persistEvent w' e) maxAttempts St.init
      (Err.registryFailure msg) hm h1 rfl
    have hgo : storeEventsGo w' maxAttempts [e] St.init =
        (Except.error (Err.registryFailure msg), (persistEvent w' e St.init).2) := by
      simp [storeEventsGo, hrr]
    have hse : storeEvents w' maxAttempts [e] St.init =
        (Except.error (Err.registryFailure msg), (persistEvent w' e St.init).2) := by
      simp [storeEvents, hgo]
    rw [hse, hpe]
    exact ⟨rfl, rfl⟩

/-- A world for the C4 witness: one conflict, then success. -/
def worldOneConflict : World :=
  ⟨sampleClock, conflictThenOk 1, fun _ => none⟩

/-- A world for the C4 witness whose store always fails with a
non-conflict registry error. -/
def worldRegistryBroken : World :=
  ⟨sampleClock, fun _ => some (Err.registryFailure "disk"), fun _ => none⟩

/-- A sample snapshot envelope. -/
def sampleSnapshot : EntitySnapshotEnvelope :=
  ⟨"Cart", "cart-1", "snapshot", "state", "2024-01-01T00:00:00.000Z"⟩

/-- Witness for C4 at a concrete input: `k = 1` conflict against a bound
of `2` attempts. -/
theorem retry_bounded_and_nonconflict_immediate_witness :
    (1 < 2 →
      (storeSnapshot worldOneConflict 2 sampleSnapshot St.init).1 = Except.ok () ∧
      (storeSnapshot worldOneConflict 2 sampleSnapshot St.init).2.storeCalls = 1 + 1) ∧
    (2 ≤ 1 →
      (storeSnapshot worldOneConflict 2 sampleSnapshot St.init).1 =
        Except.error Err.conflict ∧
      (storeSnapshot worldOneConflict 2 sampleSnapshot St.init).2.storeCalls = 2) ∧
    (1 < 2 →
      (storeEvents worldOneConflict 2 [sampleEvent "a"] St.init).1 = Except.ok () ∧
      (storeEvents worldOneConflict 2 [sampleEvent "a"] St.init).2.storeCalls = 1 + 1) ∧
    (2 ≤ 1 →
      (storeEvents worldOneConflict 2 [sampleEvent "a"] St.init).1 =
        Except.error Err.conflict ∧
      (storeEvents worldOneConflict 2 [sampleEvent "a"] St.init).2.storeCalls = 2) ∧
    ((storeSnapshot worldRegistryBroken 2 sampleSnapshot St.init).1 =
        Except.error (Err.registryFailure "disk") ∧
      (storeSnapshot worldRegistryBroken 2 sampleSnapshot St.init).2.storeCalls = 1) ∧
    ((storeEvents worldRegistryBroken 2 [sampleEvent "a"] St.init).1 =
        Except.error (Err.registryFailure "disk") ∧
      (storeEvents worldRegistryBroken 2 [sampleEvent "a"] St.init).2.storeCalls = 1) :=
  retry_bounded_and_nonconflict_immediate worldOneConflict worldRegistryBroken
    1 2 "disk" (sampleEvent "a") sampleSnapshot
    (by decide) (fun i => rfl) rfl rfl

/-! ## Order facts for timestamp comparison -/

lemma tsLt_irrefl (s : Timestamp) : tsLt s s = false := by
  simp [tsLt]

lemma tsLt_asymm (s t : Timestamp) (h : tsLt s t = true) : tsLt t s = false := by
  simp [tsLt] at h ⊢
  exact le_of_lt h

lemma tsLt_ne (s t : Timestamp) (h : tsLt s t = true) : t ≠ s := by
  intro he
  subst he
  rw [tsLt_irrefl] at h
  cases h

lemma tsLt_neg_trans (x b y : Timestamp)
    (h1 : tsLt x b = false) (h2 : tsLt b y = false) : tsLt x y = false := by
  simp [tsLt] at h1 h2 ⊢
  exact le_trans h2 h1

/-! ## Membership in the sorted query result -/

lemma mem_insertByCreatedAt (e : EventEnvelope) :
    ∀ (l : List EventEnvelope) (x : EventEnvelope),
    x ∈ insertByCreatedAt e l ↔ x = e ∨ x ∈ l := by
  intro l
  induction l with
  | nil =>
    intro x
    simp [insertByCreatedAt]
  | cons a as ih =>
    intro x
    simp only [insertByCreatedAt]
    split
    · simp [ih]
      tauto
    · simp

lemma mem_sortByCreatedAt (l : List EventEnvelope) (x : EventEnvelope) :
    x ∈ sortByCreatedAt l ↔ x ∈ l := by
  induction l with
  | nil => simp [sortByCreatedAt]
  | cons a as ih =>
    have hstep : sortByCreatedAt (a :: as) =
        insertByCreatedAt a (sortByCreatedAt as) := rfl
    rw [hstep, mem_insertByCreatedAt]
    simp [ih]

lemma mem_registryQuery (records : List EventEnvelope) (q : EventsQuery)
    (x : EventEnvelope) :
    x ∈ registryQuery records q ↔ x ∈ records.filter (matchesEventsQuery q) :=
  mem_sortByCreatedAt _ _

lemma matchesEventsQuery_fields (q : EventsQuery) (e : EventEnvelope)
    (h : matchesEventsQuery q e = true) :
    e.entityID = q.entityID ∧ e.entityTypeName = q.entityTypeName ∧
    e.kind = q.kind ∧ tsLt q.createdAtGt e.createdAt = true := by
  simp [matchesEventsQuery] at h
  tauto

/-! ## Claim C6 -/

/-- C6: `readEntityEventsSince` with `since` absent queries from the fixed
epoch-origin lower bound; the query filters on the given entity id, type
name, kind `"event"` and `createdAt` strictly greater than the bound, so
an event whose `createdAt` equals `since` is excluded; and the registry's
ordered result sequence is returned unchanged. -/
theorem readEntityEventsSince_spec (records : List EventEnvelope)
    (entityTypeName entityID : String) (since : Option Timestamp) :
    (∀ q : EventsQuery → List EventEnvelope,
      readEntityEventsSince q entityTypeName entityID none =
        q ⟨entityID, entityTypeName, "event", originOfTime⟩) ∧
    (∀ sv : Timestamp, sv ≠ "" →
      readEntityEventsSince (registryQuery records) entityTypeName entityID
          (some sv) =
        registryQuery records ⟨entityID, entityTypeName, "event", sv⟩) ∧
    (∀ e ∈ readEntityEventsSince (registryQuery records) entityTypeName
        entityID since,
      e.entityID = entityID ∧ e.entityTypeName = entityTypeName ∧
      e.kind = "event" ∧ ∀ sv : Timestamp, since = some sv → e.createdAt ≠ sv) := by
  refine ⟨fun q => rfl, ?_, ?_⟩
  · intro sv hsv
    simp [readEntityEventsSince, hsv]
  · intro e he
    cases since with
    | none =>
      have he' : e ∈ records.filter
          (matchesEventsQuery ⟨entityID, entityTypeName, "event", originOfTime⟩) :=
        (mem_registryQuery records _ e).mp he
      obtain ⟨h1, h2, h3, _⟩ :=
        matchesEventsQuery_fields _ e (List.of_mem_filter he')
      exact ⟨h1, h2, h3, fun sv hsv => by cases hsv⟩
    | some sv =>
      by_cases hsv : sv = ""
      · subst hsv
        have hread : readEntityEventsSince (registryQuery records)
            entityTypeName entityID (some "") =
            registryQuery records ⟨entityID, entityTypeName, "event", originOfTime⟩ := by
          simp [readEntityEventsSince]
        rw [hread] at he
        have he' := (mem_registryQuery records _ e).mp he
        obtain ⟨h1, h2, h3, h4⟩ :=
          matchesEventsQuery_fields _ e (List.of_mem_filter he')
        refine ⟨h1, h2, h3, fun sv' hsv' => ?_⟩
        cases hsv'
        intro heq
        rw [heq] at h4
        have : tsLt originOfTime "" = false := by decide
        rw [this] at h4
        cases h4
      · have hread : readEntityEventsSince (registryQuery records)
            entityTypeName entityID (some sv) =
            registryQuery records ⟨entityID, entityTypeName, "event", sv⟩ := by
          simp [readEntityEventsSince, hsv]
        rw [hread] at he
        have he' := (mem_registryQuery records _ e).mp he
        obtain ⟨h1, h2, h3, h4⟩ :=
          matchesEventsQuery_fields _ e (List.of_mem_filter he')
        refine ⟨h1, h2, h3, fun sv' hsv' => ?_⟩
        cases hsv'
        exact tsLt_ne _ _ h4

/-- A sample persisted event record with the given `createdAt`. -/
def sampleRecord (ts : Timestamp) : EventEnvelope :=
  ⟨⟨"Cart", "cart-1", "event", "v", ts, "req-1"⟩, "2024-02-01T00:00:00.000Z"⟩

/-- Witness for C6 at a concrete input: a two-record registry queried with
`since` equal to the first record's `createdAt`. -/
theorem readEntityEventsSince_spec_witness :
    (∀ q : EventsQuery → List EventEnvelope,
      readEntityEventsSince q "Cart" "cart-1" none =
        q ⟨"cart-1", "Cart", "event", originOfTime⟩) ∧
    (∀ sv : Timestamp, sv ≠ "" →
      readEntityEventsSince
          (registryQuery [sampleRecord "2024-01-01T00:00:00.000Z",
            sampleRecord "2024-01-02T00:00:00.000Z"]) "Cart" "cart-1" (some sv) =
        registryQuery [sampleRecord "2024-01-01T00:00:00.000Z",
          sampleRecord "2024-01-02T00:00:00.000Z"]
          ⟨"cart-1", "Cart", "event", sv⟩) ∧
    (∀ e ∈ readEntityEventsSince
        (registryQuery [sampleRecord "2024-01-01T00:00:00.000Z",
          sampleRecord "2024-01-02T00:00:00.000Z"]) "Cart" "cart-1"
        (some "2024-01-01T00:00:00.000Z"),
      e.entityID = "cart-1" ∧ e.entityTypeName = "Cart" ∧
      e.kind = "event" ∧ ∀ sv : Timestamp,
        (some "2024-01-01T00:00:00.000Z" : Option Timestamp) = some sv →
        e.createdAt ≠ sv) :=
  readEntityEventsSince_spec
    [sampleRecord "2024-01-01T00:00:00.000Z",
      sampleRecord "2024-01-02T00:00:00.000Z"]
    "Cart" "cart-1" (some "2024-01-01T00:00:00.000Z")

/-! ## Claim C7 -/

lemma latestOf_eq_none (l : List EntitySnapshotEnvelope) :
    latestOf l = none ↔ l = [] := by
  cases l with
  | nil => simp [latestOf]
  | cons x xs =>
    have hne : latestOf (x :: xs) ≠ none := by
      rw [latestOf]
      rcases h : latestOf xs with _ | b
      · simp
      · simp only
        split <;> simp
    simp [hne]

lemma latestOf_mem : ∀ (l : List EntitySnapshotEnvelope) (r : EntitySnapshotEnvelope),
    latestOf l = some r → r ∈ l := by
  intro l
  induction l with
  | nil => intro r h; cases h
  | cons x xs ih =>
    intro r h
    rw [latestOf] at h
    rcases hxs : latestOf xs with _ | b
    · rw [hxs] at h
      simp only at h
      injection h with h
      subst h
      exact List.mem_cons_self _ _
    · rw [hxs] at h
      simp only at h
      split at h
      · injection h with h
        subst h
        exact List.mem_cons_of_mem _ (ih _ hxs)
      · injection h with h
        subst h
        exact List.mem_cons_self _ _

lemma latestOf_max : ∀ (l : List EntitySnapshotEnvelope) (r : EntitySnapshotEnvelope),
    latestOf l = some r →
    ∀ x ∈ l, tsLt r.createdAt x.createdAt = false := by
  intro l
  induction l with
  | nil => intro r h; cases h
  | cons a as ih =>
    intro r h x hx
    rw [latestOf] at h
    rcases hxs : latestOf as with _ | b
    · rw [hxs] at h
      simp only at h
      injection h with h
      subst h
      have has : as = [] := (latestOf_eq_none as).mp hxs
      subst has
      rcases List.mem_cons.mp hx with rfl | hx'
      · exact tsLt_irrefl _
      · cases hx'
    · rw [hxs] at h
      simp only at h
      split at h
      · rename_i hcmp
        injection h with h
        subst h
        rcases List.mem_cons.mp hx with rfl | hx'
        · exact tsLt_asymm _ _ hcmp
        · exact ih _ hxs x hx'
      · rename_i hcmp
        injection h with h
        subst h
        rcases List.mem_cons.mp hx with rfl | hx'
        · exact tsLt_irrefl _
        · have hab : tsLt a.createdAt b.createdAt = false := by
            cases hcb : tsLt a.createdAt b.createdAt
            · rfl
            · exact absurd hcb hcmp
          exact tsLt_neg_trans _ b.createdAt _ hab (ih b hxs x hx')

/-- C7: `readEntityLatestSnapshot` delegates to the registry's
`queryLatestSnapshot` with the entity's snapshot query and returns its
answer unchanged; the result is the explicit absent value exactly when no
matching snapshot exists (absence is an ordinary `Option` result, never
an error nor a default object), and any returned snapshot is a matching
one that no other matching snapshot strictly postdates. -/
theorem readEntityLatestSnapshot_spec (records : List EntitySnapshotEnvelope)
    (entityTypeName entityID : String) :
    readEntityLatestSnapshot (queryLatestSnapshot records) entityTypeName
        entityID =
      queryLatestSnapshot records ⟨entityID, entityTypeName, "snapshot"⟩ ∧
    (readEntityLatestSnapshot (queryLatestSnapshot records) entityTypeName
        entityID = none ↔
      records.filter
        (matchesSnapshotQuery ⟨entityID, entityTypeName, "snapshot"⟩) = []) ∧
    (∀ r : EntitySnapshotEnvelope,
      readEntityLatestSnapshot (queryLatestSnapshot records) entityTypeName
          entityID = some r →
      r ∈ records.filter
          (matchesSnapshotQuery ⟨entityID, entityTypeName, "snapshot"⟩) ∧
      ∀ x ∈ records.filter
          (matchesSnapshotQuery ⟨entityID, entityTypeName, "snapshot"⟩),
        tsLt r.createdAt x.createdAt = false) := by
  have hdel : readEntityLatestSnapshot (queryLatestSnapshot records)
      entityTypeName entityID =
      queryLatestSnapshot records ⟨entityID, entityTypeName, "snapshot"⟩ := by
    rw [readEntityLatestSnapshot]
    rcases h : queryLatestSnapshot records ⟨entityID, entityTypeName, "snapshot"⟩
      with _ | snap <;> simp [h]
  refine ⟨hdel, ?_, ?_⟩
  · rw [hdel, queryLatestSnapshot, latestOf_eq_none]
  · intro r hr
    rw [hdel, queryLatestSnapshot] at hr
    exact ⟨latestOf_mem _ r hr, latestOf_max _ r hr⟩

/-- A sample snapshot record with the given `createdAt`. -/
def sampleSnapAt (ts : Timestamp) : EntitySnapshotEnvelope :=
  ⟨"Cart", "cart-1", "snapshot", "state", ts⟩

/-- Witness for C7 at a concrete input: a registry holding two snapshots
of the entity. -/
theorem readEntityLatestSnapshot_spec_witness :
    readEntityLatestSnapshot
        (queryLatestSnapshot [sampleSnapAt "2024-01-01T00:00:00.000Z",
          sampleSnapAt "2024-01-02T00:00:00.000Z"]) "Cart" "cart-1" =
      queryLatestSnapshot [sampleSnapAt "2024-01-01T00:00:00.000Z",
        sampleSnapAt "2024-01-02T00:00:00.000Z"]
        ⟨"cart-1", "Cart", "snapshot"⟩ ∧
    (readEntityLatestSnapshot
        (queryLatestSnapshot [sampleSnapAt "2024-01-01T00:00:00.000Z",
          sampleSnapAt "2024-01-02T00:00:00.000Z"]) "Cart" "cart-1" = none ↔
      [sampleSnapAt "2024-01-01T00:00:00.000Z",
        sampleSnapAt "2024-01-02T00:00:00.000Z"].filter
        (matchesSnapshotQuery ⟨"cart-1", "Cart", "snapshot"⟩) = []) ∧
    (∀ r : EntitySnapshotEnvelope,
      readEntityLatestSnapshot
          (queryLatestSnapshot [sampleSnapAt "2024-01-01T00:00:00.000Z",
            sampleSnapAt "2024-01-02T00:00:00.000Z"]) "Cart" "cart-1" = some r →
      r ∈ [sampleSnapAt "2024-01-01T00:00:00.000Z",
          sampleSnapAt "2024-01-02T00:00:00.000Z"].filter
          (matchesSnapshotQuery ⟨"cart-1", "Cart", "snapshot"⟩) ∧
      ∀ x ∈ [sampleSnapAt "2024-01-01T00:00:00.000Z",
          sampleSnapAt "2024-01-02T00:00:00.000Z"].filter
          (matchesSnapshotQuery ⟨"cart-1", "Cart", "snapshot"⟩),
        tsLt r.createdAt x.createdAt = false) :=
  readEntityLatestSnapshot_spec
    [sampleSnapAt "2024-01-01T00:00:00.000Z",
      sampleSnapAt "2024-01-02T00:00:00.000Z"] "Cart" "cart-1"

/-! ## Claim C8 -/

/-- A world whose registry always stores successfully but whose dispatch
sink fails by raising the very conflict error value the store path uses:
JavaScript lets a dispatcher throw any error, and `storeEvents` line 81
rethrows it without wrapping. -/
def worldDispatchThrowsConflict : World :=
  ⟨sampleClock, fun _ => none, fun _ => some Err.conflict⟩

/-- C8 counterexample: a batch persists fully, the dispatch sink fails,
yet `storeEvents` surfaces exactly the `ConflictError` value — not a
distinct persisted-but-not-dispatched error kind — so the caller cannot
distinguish this dispatch failure from a store conflict. -/
theorem dispatch_failure_not_distinct_kind :
    (storeEvents worldDispatchThrowsConflict 1 [sampleEvent "a"] St.init).1 =
      Except.error Err.conflict ∧
    (storeEvents worldDispatchThrowsConflict 1 [sampleEvent "a"]
        St.init).2.storedEvents.map EventEnvelope.erase = [sampleEvent "a"] ∧
    (storeEvents worldDispatchThrowsConflict 1 [sampleEvent "a"]
        St.init).2.dispatchCalls = [[sampleEvent "a"]] :=
  ⟨rfl, rfl, rfl⟩

lemma storeEventsGo_all_ok (w : World) (hstores : ∀ i, w.storeResult i = none)
    (maxAttempts : Nat) (hm : 1 ≤ maxAttempts) :
    ∀ (envs : List NonPersistedEventEnvelope) (s : St),
    (storeEventsGo w maxAttempts envs s).1 = Except.ok () ∧
    (storeEventsGo w maxAttempts envs s).2.storedEvents.map EventEnvelope.erase =
      s.storedEvents.map EventEnvelope.erase ++ envs ∧
    (storeEventsGo w maxAttempts envs s).2.storeCalls =
      s.storeCalls + envs.length ∧
    (storeEventsGo w maxAttempts envs s).2.dispatchCalls = s.dispatchCalls := by
  intro envs
  induction envs with
  | nil =>
    intro s
    exact ⟨rfl, by simp [storeEventsGo], by simp [storeEventsGo], rfl⟩
  | cons e rest ih =>
    intro s
    have hop := persistEvent_ok w e s (hstores s.storeCalls)
    have h1 : (persistEvent w e s).1 = Except.ok () := by rw [hop]
    have hr := retryIfError_ok (persistEvent w e) isConflict maxAttempts s hm h1
    rw [hop] at hr
    have hloop : storeEventsGo w maxAttempts (e :: rest) s =
        storeEventsGo w maxAttempts rest { s with
          clockCalls := s.clockCalls + 1
          storeCalls := s.storeCalls + 1
          storeAttempts := s.storeAttempts ++ [toPersisted e (w.now s.clockCalls)]
          storedEvents := s.storedEvents ++ [toPersisted e (w.now s.clockCalls)] } := by
      simp [storeEventsGo, hr]
    rw [hloop]
    obtain ⟨ho, hs, hc, hd⟩ := ih { s with
      clockCalls := s.clockCalls + 1
      storeCalls := s.storeCalls + 1
      storeAttempts := s.storeAttempts ++ [toPersisted e (w.now s.clockCalls)]
      storedEvents := s.storedEvents ++ [toPersisted e (w.now s.clockCalls)] }
    refine ⟨ho, ?_, ?_, hd⟩
    · rw [hs]
      simp [erase_toPersisted]
    · rw [hc]
      simp
      omega

/-- C8 as amended: when every envelope of the batch persists and the
dispatch sink fails, `storeEvents` propagates the dispatcher's error
value unchanged (the code applies no persisted-but-not-dispatched
wrapper, so the failure is distinguishable from store errors only insofar
as the dispatcher's own error value differs from them); the dispatch is
attempted exactly once (never retried) and every envelope is stored
exactly once (never re-persisted). -/
theorem dispatch_failure_propagates_unchanged (w : World) (maxAttempts : Nat)
    (envs : List NonPersistedEventEnvelope) (s : St) (d : Err)
    (hm : 1 ≤ maxAttempts)
    (hstores : ∀ i, w.storeResult i = none)
    (hd : w.dispatchResult s.dispatchCalls.length = some d) :
    (storeEvents w maxAttempts envs s).1 = Except.error d ∧
    (storeEvents w maxAttempts envs s).2.dispatchCalls =
      s.dispatchCalls ++ [envs] ∧
    (storeEvents w maxAttempts envs s).2.storedEvents.map EventEnvelope.erase =
      s.storedEvents.map EventEnvelope.erase ++ envs ∧
    (storeEvents w maxAttempts envs s).2.storeCalls =
      s.storeCalls + envs.length := by
  obtain ⟨ho, hs, hc, hdc⟩ := storeEventsGo_all_ok w hstores maxAttempts hm envs s
  rcases hg : storeEventsGo w maxAttempts envs s with ⟨r1, s1⟩
  rw [hg] at ho hs hc hdc
  simp only at ho hs hc hdc
  subst ho
  have hse : storeEvents w maxAttempts envs s = dispatchBatch w envs s1 := by
    simp [storeEvents, hg]
  have hd1 : w.dispatchResult s1.dispatchCalls.length = some d := by
    rw [hdc]
    exact hd
  rw [hse, dispatchBatch_err w envs s1 d hd1]
  exact ⟨rfl, by simp only; rw [hdc], hs, hc⟩

/-- Witness for the amended C8 at a concrete input. -/
theorem dispatch_failure_propagates_unchanged_witness :
    (storeEvents worldDispatchThrowsConflict 2
        [sampleEvent "a", sampleEvent "b"] St.init).1 =
      Except.error Err.conflict ∧
    (storeEvents worldDispatchThrowsConflict 2
        [sampleEvent "a", sampleEvent "b"] St.init).2.dispatchCalls =
      St.init.dispatchCalls ++ [[sampleEvent "a", sampleEvent "b"]] ∧
    (storeEvents worldDispatchThrowsConflict 2
        [sampleEvent "a", sampleEvent "b"]
        St.init).2.storedEvents.map EventEnvelope.erase =
      St.init.storedEvents.map EventEnvelope.erase ++
        [sampleEvent "a", sampleEvent "b"] ∧
    (storeEvents worldDispatchThrowsConflict 2
        [sampleEvent "a", sampleEvent "b"] St.init).2.storeCalls =
      St.init.storeCalls + [sampleEvent "a", sampleEvent "b"].length :=
  dispatch_failure_propagates_unchanged worldDispatchThrowsConflict 2
    [sampleEvent "a", sampleEvent "b"] St.init Err.conflict
    (by decide) (fun i => rfl) rfl

end EventsAdapter
